import Mathlib

/-!
Verification of `futuresboard/core/utils.py`: the request-signing,
request-dispatch and response-classification core of the futuresboard
repository. Machine integers are modelled as `Nat` with explicit
reduction modulo 2^32 where the hash arithmetic wraps; Python `dict`
payloads are association lists; the network is an explicit outcome
parameter fed to the executors; uncaught Python exceptions are the
`Except.error` branch of the executors' result.
-/

namespace Futuresboard

/-! ### SHA-256 and HMAC-SHA256 over byte lists
Model of `hashlib.sha256` and `hmac.new(..., hashlib.sha256)`.
Bytes are `Nat` values below 256; words are `Nat` values below 2^32. -/

/-- Truncate to a 32-bit word. -/
def w32 (x : Nat) : Nat := x % 4294967296

/-- Rotate a 32-bit word right by `n` bits. -/
def rotr (x n : Nat) : Nat := w32 ((x >>> n) ||| (x <<< (32 - n)))

/-- 32-bit wrapping addition. -/
def wadd (a b : Nat) : Nat := w32 (a + b)

/-- Bitwise complement of a 32-bit word (inputs are kept below 2^32). -/
def bnot32 (x : Nat) : Nat := 4294967295 - x

def shaCh (e f g : Nat) : Nat := (e &&& f) ^^^ ((bnot32 e) &&& g)

def shaMaj (a b c : Nat) : Nat := (a &&& b) ^^^ (a &&& c) ^^^ (b &&& c)

def bigSigma0 (a : Nat) : Nat := (rotr a 2) ^^^ (rotr a 13) ^^^ (rotr a 22)

def bigSigma1 (e : Nat) : Nat := (rotr e 6) ^^^ (rotr e 11) ^^^ (rotr e 25)

def smallSigma0 (x : Nat) : Nat := (rotr x 7) ^^^ (rotr x 18) ^^^ (x >>> 3)

def smallSigma1 (x : Nat) : Nat := (rotr x 17) ^^^ (rotr x 19) ^^^ (x >>> 10)

/-- The 64 SHA-256 round constants of FIPS 180-4, in decimal (the test
vectors below check the table). -/
def K256 : List Nat :=
  [1116352408, 1899447441, 3049323471, 3921009573, 961987163, 1508970993,
   2453635748, 2870763221, 3624381080, 310598401, 607225278, 1426881987,
   1925078388, 2162078206, 2614888103, 3248222580, 3835390401, 4022224774,
   264347078, 604807628, 770255983, 1249150122, 1555081692, 1996064986,
   2554220882, 2821834349, 2952996808, 3210313671, 3336571891, 3584528711,
   113926993, 338241895, 666307205, 773529912, 1294757372, 1396182291,
   1695183700, 1986661051, 2177026350, 2456956037, 2730485921, 2820302411,
   3259730800, 3345764771, 3516065817, 3600352804, 4094571909, 275423344,
   430227734, 506948616, 659060556, 883997877, 958139571, 1322822218,
   1537002063, 1747873779, 1955562222, 2024104815, 2227730452, 2361852424,
   2428436474, 2756734187, 3204031479, 3329325298]

/-- The SHA-256 initial hash state of FIPS 180-4, in decimal. -/
def H256 : List Nat :=
  [1779033703, 3144134277, 1013904242, 2773480762,
   1359893119, 2600822924, 528734635, 1541459225]

/-- Big-endian 8-byte encoding of the bit length, for the padding block. -/
def lenBytes (bitLen : Nat) : List Nat :=
  [(bitLen >>> 56) % 256, (bitLen >>> 48) % 256, (bitLen >>> 40) % 256, (bitLen >>> 32) % 256,
   (bitLen >>> 24) % 256, (bitLen >>> 16) % 256, (bitLen >>> 8) % 256, bitLen % 256]

/-- SHA-256 message padding: a 0x80 byte, zeros to 56 mod 64, then the
64-bit big-endian message bit length. -/
def sha256Pad (ms : List Nat) : List Nat :=
  ms ++ (128 :: (List.replicate ((55 + 64 - ms.length % 64) % 64) 0 ++ lenBytes (8 * ms.length)))

/-- Split a byte list into 64-byte chunks (fuel-driven; the fuel
`ms.length` always suffices because each step consumes at least one byte). -/
def chunks64Aux : Nat → List Nat → List (List Nat)
  | 0, _ => []
  | _ + 1, [] => []
  | fuel + 1, ms => ms.take 64 :: chunks64Aux fuel (ms.drop 64)

def chunks64 (ms : List Nat) : List (List Nat) := chunks64Aux ms.length ms

/-- Big-endian 4-byte groups to 32-bit words. -/
def bytesToWords : List Nat → List Nat
  | b0 :: b1 :: b2 :: b3 :: rest => (((b0 * 256 + b1) * 256 + b2) * 256 + b3) :: bytesToWords rest
  | _ => []

/-- Extend the 16 message-schedule words to 64. -/
def extendSchedule (w : Array Nat) : Array Nat :=
  (List.range 48).foldl
    (fun acc i =>
      acc.push (wadd (wadd (acc.getD i 0) (smallSigma0 (acc.getD (i + 1) 0)))
                     (wadd (acc.getD (i + 9) 0) (smallSigma1 (acc.getD (i + 14) 0))))) w

/-- One SHA-256 round on the 8-word working state. -/
def compressWord (s : List Nat) (kw : Nat × Nat) : List Nat :=
  match s with
  | [a, b, c, d, e, f, g, h] =>
    let t1 := w32 (h + bigSigma1 e + shaCh e f g + kw.1 + kw.2)
    let t2 := w32 (bigSigma0 a + shaMaj a b c)
    [wadd t1 t2, a, b, c, wadd d t1, e, f, g]
  | other => other

/-- Compress one 64-byte block into the hash state. -/
def compressBlock (h : List Nat) (block : List Nat) : List Nat :=
  let ws := (extendSchedule (bytesToWords block).toArray).toList
  let s := List.foldl compressWord h (K256.zip ws)
  List.zipWith wadd h s

def wordBytes (w : Nat) : List Nat :=
  [(w >>> 24) % 256, (w >>> 16) % 256, (w >>> 8) % 256, w % 256]

/-- SHA-256 of a byte list, as 32 digest bytes. -/
def sha256 (ms : List Nat) : List Nat :=
  (((chunks64 (sha256Pad ms)).foldl compressBlock H256).map wordBytes).flatten

/-- HMAC-SHA256 (RFC 2104) of a message under a key, as 32 digest bytes. -/
def hmacSha256 (key msg : List Nat) : List Nat :=
  let k0 := if 64 < key.length then sha256 key else key
  let kp := k0 ++ List.replicate (64 - k0.length) 0
  sha256 ((kp.map (fun b => b ^^^ 92)) ++ sha256 ((kp.map (fun b => b ^^^ 54)) ++ msg))

def hexDigit (n : Nat) : Char := "0123456789abcdef".data.getD n '0'

def byteHex (b : Nat) : String := String.mk [hexDigit (b / 16), hexDigit (b % 16)]

/-- Lowercase hex digest, as Python's `.hexdigest()` renders it. -/
def bytesHex (bs : List Nat) : String := String.join (bs.map byteHex)

/-- UTF-8 encoding of one character, as Python's `str.encode("utf-8")`. -/
def charBytes (c : Char) : List Nat :=
  let n := c.toNat
  if n < 128 then [n]
  else if n < 2048 then [192 ||| (n >>> 6), 128 ||| (n &&& 63)]
  else if n < 65536 then [224 ||| (n >>> 12), 128 ||| ((n >>> 6) &&& 63), 128 ||| (n &&& 63)]
  else [240 ||| (n >>> 18), 128 ||| ((n >>> 12) &&& 63), 128 ||| ((n >>> 6) &&& 63), 128 ||| (n &&& 63)]

/-- UTF-8 bytes of a string. -/
def strBytes (s : String) : List Nat := (s.data.map charBytes).flatten

/-- Hex HMAC-SHA256 digest of a message string under a secret string,
both UTF-8 encoded: the body of both branches of `hashing`. -/
def hmacSha256Hex (secret msg : String) : String :=
  bytesHex (hmacSha256 (strBytes secret) (strBytes msg))

/-! ### The credential pair and `hashing` (utils.py lines 37-56) -/

/-- The `keys` dict `{"key": ..., "secret": ...}` handed to `hashing`
and `send_signed_request`. -/
structure Keys where
  key : String
  secret : String

/-- `hashing(query_string, exchange, timestamp, keys)`: for `"bybit"` the
signed payload is `f"{timestamp}{keys['key']}5000" + query_string`; every
other exchange signs the query string alone. Both branches return the hex
HMAC-SHA256 digest under `keys["secret"]`. -/
def hashing (query_string : String) (exchange : String) (timestamp : Int) (keys : Keys) : String :=
  if exchange = "bybit" then
    hmacSha256Hex keys.secret (toString timestamp ++ keys.key ++ "5000" ++ query_string)
  else
    hmacSha256Hex keys.secret query_string

/-! ### Python `urllib.parse.quote_plus` / `urlencode` and `str`/`repr`
Model of the query-string construction the two executors perform. -/

/-- The bytes `urllib.parse.quote` never percent-encodes (letters, digits,
`_`, `.`, `-`, `~`; the `safe` argument is empty in `urlencode`'s use). -/
def alwaysSafeByte (b : Nat) : Bool :=
  (decide (48 ≤ b) && decide (b ≤ 57)) || (decide (65 ≤ b) && decide (b ≤ 90)) ||
    (decide (97 ≤ b) && decide (b ≤ 122)) || b == 95 || b == 46 || b == 45 || b == 126

def hexDigitUpper (n : Nat) : Char := "0123456789ABCDEF".data.getD n '0'

/-- `quote_plus` on one byte: space becomes `+`, safe bytes pass through,
everything else becomes `%XX` with uppercase hex. -/
def quoteByteChars (b : Nat) : List Char :=
  if b == 32 then ['+']
  else if alwaysSafeByte b then [Char.ofNat b]
  else ['%', hexDigitUpper (b / 16), hexDigitUpper (b % 16)]

/-- `urllib.parse.quote_plus` over the UTF-8 bytes of a string. -/
def quote_plus (s : String) : String :=
  String.mk ((strBytes s).map quoteByteChars).flatten

/-- A Python parameter value as the executors receive it: a string, an
int, or a list (the repeatable case). -/
inductive PyVal where
  | s (v : String)
  | i (v : Int)
  | l (elems : List PyVal)

mutual

/-- Python `repr`, as `str` applies it to list elements: strings are
quoted (double quotes when the string itself holds a single quote),
ints print plainly, lists recurse. -/
def pyRepr : PyVal → String
  | .s v =>
    if v.data.contains (Char.ofNat 39) then
      String.mk (Char.ofNat 34 :: (v.data ++ [Char.ofNat 34]))
    else
      String.mk (Char.ofNat 39 :: (v.data ++ [Char.ofNat 39]))
  | .i v => toString v
  | .l es => "[" ++ String.intercalate ", " (pyReprList es) ++ "]"

def pyReprList : List PyVal → List String
  | [] => []
  | v :: vs => pyRepr v :: pyReprList vs

end

/-- Python `str` of a parameter value (`urlencode` stringifies every
value before quoting it). -/
def pyStr : PyVal → String
  | .s v => v
  | .i v => toString v
  | .l es => "[" ++ String.intercalate ", " (pyReprList es) ++ "]"

/-- One `key=value` component: `quote_plus(str(k)) + "=" + quote_plus(str(v))`. -/
def pairStr (p : String × PyVal) : String :=
  quote_plus p.1 ++ "=" ++ quote_plus (pyStr p.2)

/-- `"&".join`, as `urlencode` assembles the components. -/
def joinAmp : List String → String
  | [] => ""
  | [x] => x
  | x :: y :: t => x ++ "&" ++ joinAmp (y :: t)

/-- `urlencode(payload)` with `doseq=False` (the signed executor's call,
line 155): every value, lists included, is stringified into one pair. -/
def urlencodeNoSeq (ps : List (String × PyVal)) : String :=
  joinAmp (ps.map pairStr)

/-- With `doseq=True` a list value contributes one `key=value` pair per
element; scalars contribute a single pair. -/
def seqPairs (k : String) : PyVal → List String
  | .l es => es.map (fun e => pairStr (k, e))
  | v => [pairStr (k, v)]

def urlencodeSeqPairs (ps : List (String × PyVal)) : List String :=
  (ps.map (fun p => seqPairs p.1 p.2)).flatten

/-- `urlencode(payload, True)` (the public executor's call, line 97). -/
def urlencodeSeq (ps : List (String × PyVal)) : String :=
  joinAmp (urlencodeSeqPairs ps)

/-- Stable insertion of a pair after all pairs with a key `≤` its own:
the building block of a stable sort by key. -/
def insertPair (p : String × PyVal) : List (String × PyVal) → List (String × PyVal)
  | [] => [p]
  | q :: qs => if q.1 ≤ p.1 then q :: insertPair p qs else p :: q :: qs

/-- `sorted(payload.items())` for distinct keys: the stable ascending
sort by key (Python's sort is stable, and a stable sort is unique, so
insertion sort computes the same list). -/
def sortByKey (ps : List (String × PyVal)) : List (String × PyVal) :=
  ps.foldl (fun acc p => insertPair p acc) []

/-- Python dict assignment `payload[k] = v` on an association list:
replace the value in place if the key exists, else append the pair. -/
def dictSet (ps : List (String × PyVal)) (k : String) (v : PyVal) : List (String × PyVal) :=
  if ps.any (fun p => p.1 == k) then
    ps.map (fun p => if p.1 == k then (k, v) else p)
  else
    ps ++ [(k, v)]

/-- Does `p` begin the list `l`? -/
def beginsWith : List Char → List Char → Bool
  | [], _ => true
  | _ :: _, [] => false
  | p :: ps, c :: cs => p == c && beginsWith ps cs

/-- Does `p` occur contiguously anywhere in `l`? -/
def hasSeg (p : List Char) : List Char → Bool
  | [] => p.isEmpty
  | c :: cs => beginsWith p (c :: cs) || hasSeg p cs

/-- Python `str.replace`: scan left to right, replacing non-overlapping
occurrences; fuel-driven (the fuel `s.length` suffices when the pattern
is non-empty because each step consumes at least one character). -/
def replaceAux : Nat → List Char → List Char → List Char → List Char
  | 0, s, _, _ => s
  | _ + 1, [], _, _ => []
  | fuel + 1, c :: cs, p, r =>
    if beginsWith p (c :: cs) then r ++ replaceAux fuel ((c :: cs).drop p.length) p r
    else c :: replaceAux fuel cs p r

/-- `s.replace(pat, rep)` (line 156's `query_string.replace("%27", "%22")`). -/
def pyReplace (s pat rep : String) : String :=
  String.mk (replaceAux s.data.length s.data pat.data rep.data)

/-! ### `dispatch_request` (utils.py lines 59-82) -/

/-- What the verb dictionary's `.get(http_method, "GET")` yields: a bound
session method for the four known verbs, or the default — which is the
string literal `"GET"`, not a callable. -/
inductive DispatchHandler where
  | callable (verb : String)
  | notCallable (fallback : String)

/-- The fresh session `dispatch_request` configures: its header set and
the looked-up handler. -/
structure Dispatcher where
  headers : List (String × String)
  handler : DispatchHandler

/-- `dispatch_request(http_method, key, signature, timestamp)`: installs
all seven headers unconditionally (defaults `key=""`, `signature=""`,
`timestamp=-1` are formatted in, never omitted) and looks the verb up in
the four-entry dict with the string `"GET"` as fallback. -/
def dispatch_request (http_method : String) (key : String) (signature : String)
    (timestamp : Int) : Dispatcher :=
  { headers :=
      [("Content-Type", "application/json;charset=utf-8"),
       ("X-MBX-APIKEY", key),
       ("X-BAPI-API-KEY", key),
       ("X-BAPI-SIGN", signature),
       ("X-BAPI-SIGN-TYPE", "2"),
       ("X-BAPI-TIMESTAMP", toString timestamp),
       ("X-BAPI-RECV-WINDOW", "5000")],
    handler :=
      if http_method = "GET" then .callable "GET"
      else if http_method = "DELETE" then .callable "DELETE"
      else if http_method = "PUT" then .callable "PUT"
      else if http_method = "POST" then .callable "POST"
      else .notCallable "GET" }

/-- `send_public_request` calls `dispatch_request(method)` with every
credential argument left at its default. -/
def publicDispatcher (method : String) : Dispatcher :=
  dispatch_request method "" "" (-1)

/-- Whether the verb dictionary lookup produced a callable. -/
def isCallableVerb (m : String) : Bool :=
  match (publicDispatcher m).handler with
  | .callable _ => true
  | .notCallable _ => false

/-! ### Decoded JSON bodies and their classification
(utils.py lines 112-122 and 178-187) -/

/-- A decoded JSON value, as far as the classifiers inspect one. -/
inductive Json where
  | null
  | str (s : String)
  | int (n : Int)
  | arr (elems : List Json)
  | obj (fields : List (String × Json))

/-- Field lookup on an object body: the spec's notion of the presence and
value of a field in the error envelope. (Python's own `in`/`[]` operators,
whose semantics on non-dict bodies differ, are `pyIn`/`pyGetItem` below.) -/
def Json.get? : Json → String → Option Json
  | .obj fs, k => fs.lookup k
  | _, _ => none

/-- Presence of a field in an object body, as the spec speaks of it. -/
def Json.hasKey (j : Json) (k : String) : Bool := (j.get? k).isSome

/-- Python's `"k" in body`: key membership for a dict, substring search
for a string, element equality for a list, and a `TypeError` (`none`) for
a number or `None`, which are not iterable. -/
def pyIn (k : String) : Json → Option Bool
  | .obj fs => some (fs.any (fun p => p.1 == k))
  | .str s => some (hasSeg k.data s.data)
  | .arr es => some (es.any (fun e =>
      match e with
      | .str s => s == k
      | _ => false))
  | .int _ => none
  | .null => none

/-- Python's `body[k]` with a string key: dict lookup (`KeyError` when the
key is absent); a `TypeError` on every other body (string and list indices
must be integers; numbers and `None` are not subscriptable). -/
def pyGetItem : Json → String → Except String Json
  | .obj fs, k =>
    match fs.lookup k with
    | some v => .ok v
    | none => .error "KeyError"
  | _, _ => .error "TypeError"

/-- Python `len` on a JSON value; `none` where `len` would raise `TypeError`. -/
def pyLen : Json → Option Nat
  | .str s => some s.length
  | .arr es => some es.length
  | .obj fs => some fs.length
  | _ => none

/-- Python's `value != 0` test, negated: the `retCode` comparison. -/
def isZeroInt : Json → Bool
  | .int 0 => true
  | _ => false

/-- Outcome of running an executor's post-decode checks on a body:
pass through, raise `HTTPRequestError(code, msg)` (caught one layer up),
or raise an uncaught Python error (`KeyError`/`TypeError`). -/
inductive ClassifyResult where
  | success (body : Json)
  | appError (code : Json) (msg : Json)
  | pyError (kind : String)

/-- The shared `retCode` check: `"retCode" in body` (Python `in`, which
on a number or `None` raises `TypeError`), then `body["retCode"] != 0`
raises with `body["retMsg"]` — each subscript with Python's own semantics,
so a non-dict body that passed the `in` test raises `TypeError` and an
absent `retMsg` raises `KeyError`; otherwise the body passes. -/
def checkRetCode (j : Json) : ClassifyResult :=
  match pyIn "retCode" j with
  | none => .pyError "TypeError"
  | some false => .success j
  | some true =>
    match pyGetItem j "retCode" with
    | .error e => .pyError e
    | .ok rc =>
      if isZeroInt rc then .success j
      else
        match pyGetItem j "retMsg" with
        | .error e => .pyError e
        | .ok m => .appError rc m

/-- `send_public_request`'s body checks (lines 112-122):
`"code" in body and "msg" in body` with Python's short-circuit `in`
(substring/element search on string/list bodies, `TypeError` on numbers
and `None`), then `len(body["msg"]) > 0` raises with `body["code"]` and
`body["msg"]`; otherwise the `retCode` check runs. -/
def classifyPublic (j : Json) : ClassifyResult :=
  match pyIn "code" j with
  | none => .pyError "TypeError"
  | some true =>
    match pyIn "msg" j with
    | none => .pyError "TypeError"
    | some true =>
      match pyGetItem j "msg" with
      | .error e => .pyError e
      | .ok m =>
        match pyLen m with
        | none => .pyError "TypeError"
        | some n =>
          if 0 < n then
            match pyGetItem j "code" with
            | .error e => .pyError e
            | .ok c => .appError c m
          else checkRetCode j
    | some false => checkRetCode j
  | some false => checkRetCode j

/-- `send_signed_request`'s body checks (lines 178-187): `"code" in body`
(Python `in`) raises immediately with `body["code"]` and `body["msg"]` —
there is no emptiness test on this path, an absent `msg` is a `KeyError`,
and a non-dict body is a `TypeError` at the subscript; then the `retCode`
check. -/
def classifySigned (j : Json) : ClassifyResult :=
  match pyIn "code" j with
  | none => .pyError "TypeError"
  | some true =>
    match pyGetItem j "code" with
    | .error e => .pyError e
    | .ok c =>
      match pyGetItem j "msg" with
      | .error e => .pyError e
      | .ok m => .appError c m
  | some false => checkRetCode j

/-- The spec's §4.5 classification contract, written from its words: (a)
both a `code` field and a non-empty `msg` field is a failure with that
code and message; (b) else a `retCode` field with value not equal to zero
is a failure with that code and `retMsg`; (c) else success with the whole
body. -/
def specClassify (j : Json) : ClassifyResult :=
  if j.hasKey "code" &&
      (match j.get? "msg" with
       | some m => decide (0 < (pyLen m).getD 0)
       | none => false) then
    .appError ((j.get? "code").getD .null) ((j.get? "msg").getD .null)
  else if (match j.get? "retCode" with
           | some rc => !(isZeroInt rc)
           | none => false) then
    .appError ((j.get? "retCode").getD .null) ((j.get? "retMsg").getD .null)
  else
    .success j

/-- The amended contract for the signed executor, written from the amended
words: any body with a `code` field is a failure taking `code` and `msg`
verbatim; then (b) and (c) as the spec states them. -/
def specClassifySignedAmended (j : Json) : ClassifyResult :=
  if j.hasKey "code" then
    .appError ((j.get? "code").getD .null) ((j.get? "msg").getD .null)
  else if (match j.get? "retCode" with
           | some rc => !(isZeroInt rc)
           | none => false) then
    .appError ((j.get? "retCode").getD .null) ((j.get? "retMsg").getD .null)
  else
    .success j

/-- Bodies on which classification completes without an uncaught Python
error: the body is a JSON object (on any other body Python's `in`/`[]`
are substring/element search or raise `TypeError`), a present `msg` is a
string, a `code` comes with a `msg`, and a non-zero `retCode` comes with
a `retMsg`. -/
def classifiable (j : Json) : Bool :=
  (match j with
   | .obj _ => true
   | _ => false)
  && (match j.get? "msg" with
      | some (Json.str _) => true
      | some _ => false
      | none => true)
  && (!(j.hasKey "code") || j.hasKey "msg")
  && (match j.get? "retCode" with
      | some rc => isZeroInt rc || j.hasKey "retMsg"
      | none => true)

/-! ### The executors (utils.py lines 85-135 and 138-200)
The network is an explicit outcome parameter; `Except.error` is an
uncaught Python exception escaping the executor. -/

/-- What the HTTP call inside the `try` block did: one of the caught
request exceptions, or a response whose `.json()` either decodes to a
body or raises (`jsonBody = none`). -/
inductive HttpOutcome where
  | connectionError
  | timeout
  | tooManyRedirects
  | requestException (msg : String)
  | response (headers : List (String × String)) (text : String) (jsonBody : Option Json)

/-- A value position in the executors' returned pair: the empty-string
sentinel or raw text (`.str`), the response headers, or a decoded body. -/
inductive PyRet where
  | str (s : String)
  | headers (hs : List (String × String))
  | json (j : Json)

/-- Everything `send_signed_request` constructs before dispatching
(lines 149-160): the payload with the timestamp injected only for
`"binance"`, the sorted, encoded, `%27`-normalized query string, the URL
with `&signature=` appended only for `"binance"`, and the header
signature/timestamp handed to `dispatch_request`. -/
structure SignedRequest where
  url : String
  queryString : String
  headerKey : String
  headerSignature : String
  headerTimestamp : Int

def buildSignedRequest (url_path : String) (payload : List (String × PyVal))
    (exchange : String) (base_url : String) (keys : Keys) (timestamp : Int) : SignedRequest :=
  let payload1 := if exchange = "binance" then dictSet payload "timestamp" (PyVal.i timestamp) else payload
  let query_string := pyReplace (urlencodeNoSeq (sortByKey payload1)) "%27" "%22"
  let url0 := base_url ++ url_path ++ "?" ++ query_string
  let url := if exchange = "binance" then
      url0 ++ "&signature=" ++ hashing query_string exchange (-1) keys
    else url0
  { url := url,
    queryString := query_string,
    headerKey := keys.key,
    headerSignature := hashing query_string exchange timestamp keys,
    headerTimestamp := timestamp }

/-- `url + url_path` then `url + "?" + query_string` when the encoded
payload is non-empty (lines 93-99). -/
def publicUrl (url : String) (url_path : Option String) (payload : List (String × PyVal)) : String :=
  let url1 := match url_path with
    | some p => url ++ p
    | none => url
  let qs := urlencodeSeq payload
  if qs = "" then url1 else url1 ++ "?" ++ qs

/-- `send_public_request` from dispatch onward: an unknown verb means the
fallback string `"GET"` is called, a `TypeError` no `except` clause
catches; the caught request exceptions all return the
`(empty_response, empty_response)` sentinel; with `json=False` the raw
text returns; otherwise the body is classified, an `HTTPRequestError`
is caught into the sentinel, and an uncaught `KeyError`/`TypeError`
escapes. -/
def send_public_request (method : String) (wantJson : Bool) (outcome : HttpOutcome) :
    Except String (PyRet × PyRet) :=
  match (publicDispatcher method).handler with
  | .notCallable _ => .error "TypeError"
  | .callable _ =>
    match outcome with
    | .connectionError => .ok (.str "", .str "")
    | .timeout => .ok (.str "", .str "")
    | .tooManyRedirects => .ok (.str "", .str "")
    | .requestException _ => .ok (.str "", .str "")
    | .response hs text jsonBody =>
      if !wantJson then .ok (.headers hs, .str text)
      else
        match jsonBody with
        | none => .ok (.str "", .str "")
        | some j =>
          match classifyPublic j with
          | .success body => .ok (.headers hs, .json body)
          | .appError _ _ => .ok (.str "", .str "")
          | .pyError k => .error k

/-- `send_signed_request` end to end: build the request, dispatch with the
header credentials, then classify; the same sentinel/escape behavior as
the public executor, with `classifySigned` in place of `classifyPublic`. -/
def send_signed_request (http_method : String) (url_path : String)
    (payload : List (String × PyVal)) (exchange : String) (base_url : String)
    (keys : Keys) (timestamp : Int) (outcome : HttpOutcome) :
    Except String (PyRet × PyRet) :=
  match (dispatch_request http_method keys.key
      (buildSignedRequest url_path payload exchange base_url keys timestamp).headerSignature
      timestamp).handler with
  | .notCallable _ => .error "TypeError"
  | .callable _ =>
    match outcome with
    | .connectionError => .ok (.str "", .str "")
    | .timeout => .ok (.str "", .str "")
    | .tooManyRedirects => .ok (.str "", .str "")
    | .requestException _ => .ok (.str "", .str "")
    | .response hs _ jsonBody =>
      match jsonBody with
      | none => .ok (.str "", .str "")
      | some j =>
        match classifySigned j with
        | .success body => .ok (.headers hs, .json body)
        | .appError _ _ => .ok (.str "", .str "")
        | .pyError k => .error k

def isAppError : ClassifyResult → Bool
  | .appError _ _ => true
  | _ => false

/-- The failure modes claim C4 enumerates for the public executor, on a
given outcome: a transport-layer fault, a decode fault when JSON was
requested, or a classified application error. -/
def publicFailureMode (wantJson : Bool) (o : HttpOutcome) : Bool :=
  match o with
  | .connectionError => true
  | .timeout => true
  | .tooManyRedirects => true
  | .requestException _ => true
  | .response _ _ none => wantJson
  | .response _ _ (some j) => wantJson && isAppError (classifyPublic j)

/-- The same failure modes for the signed executor (which always decodes). -/
def signedFailureMode (o : HttpOutcome) : Bool :=
  match o with
  | .connectionError => true
  | .timeout => true
  | .tooManyRedirects => true
  | .requestException _ => true
  | .response _ _ none => true
  | .response _ _ (some j) => isAppError (classifySigned j)

/-! ### Sanity theorems: the hash embedding against published test vectors -/

set_option maxRecDepth 200000 in
/-- FIPS 180-2 test vector: SHA-256 of `"abc"`. -/
theorem sha256_test_vector :
    bytesHex (sha256 (strBytes "abc")) =
      "ba7816bf8f01cfea414140de5dae2223b00361a396177a9cb410ff61f20015ad" := by
  decide

set_option maxRecDepth 400000 in
/-- RFC 4231 test case 2: HMAC-SHA256 with key `"Jefe"`. -/
theorem hmac_test_vector :
    hmacSha256Hex "Jefe" "what do ya want for nothing?" =
      "5bdcc146bf60754e6a042426089575c75a003f089d2739839dec58b964ec3843" := by
  decide

/-! ### Helper lemmas: appending, segments, replacement -/

theorem strDataAppend (s t : String) : (s ++ t).data = s.data ++ t.data := rfl

theorem strLengthMk (l : List Char) : (String.mk l).length = l.length := rfl

theorem strLengthData (s : String) : s.length = s.data.length := by
  cases s
  rfl

theorem strLengthAppend (s t : String) : (s ++ t).length = s.length + t.length := by
  rw [strLengthData, strLengthData, strLengthData, strDataAppend, List.length_append]

theorem beginsWith_le_length : ∀ {p l : List Char}, beginsWith p l = true → p.length ≤ l.length := by
  intro p
  induction p with
  | nil => simp
  | cons a ps ih =>
    intro l h
    cases l with
    | nil => simp [beginsWith] at h
    | cons c cs =>
      simp only [beginsWith, Bool.and_eq_true] at h
      simpa [List.length_cons] using Nat.succ_le_succ (ih h.2)

theorem beginsWith_append_self : ∀ (p y : List Char), beginsWith p (p ++ y) = true := by
  intro p
  induction p with
  | nil => intro y; rfl
  | cons a ps ih => intro y; simp [beginsWith, ih]

theorem beginsWith_append_of : ∀ {p s : List Char} (y : List Char),
    beginsWith p s = true → beginsWith p (s ++ y) = true := by
  intro p
  induction p with
  | nil => intro s y _; rfl
  | cons a ps ih =>
    intro s y h
    cases s with
    | nil => simp [beginsWith] at h
    | cons c cs =>
      simp only [beginsWith, Bool.and_eq_true] at h
      simp only [List.cons_append, beginsWith, Bool.and_eq_true]
      exact ⟨h.1, ih y h.2⟩

theorem beginsWith_refl (p : List Char) : beginsWith p p = true := by
  simpa using beginsWith_append_self p []

theorem hasSeg_of_beginsWith : ∀ {p l : List Char}, beginsWith p l = true → hasSeg p l = true := by
  intro p l h
  cases l with
  | nil =>
    cases p with
    | nil => rfl
    | cons a ps => simp [beginsWith] at h
  | cons c cs => simp [hasSeg, h]

theorem hasSeg_refl (p : List Char) : hasSeg p p = true :=
  hasSeg_of_beginsWith (beginsWith_refl p)

theorem hasSeg_cons {p l : List Char} (c : Char) (h : hasSeg p l = true) :
    hasSeg p (c :: l) = true := by
  simp [hasSeg, h]

theorem hasSeg_append_left {p l : List Char} (x : List Char) (h : hasSeg p l = true) :
    hasSeg p (x ++ l) = true := by
  induction x with
  | nil => simpa
  | cons c cs ih => simpa using hasSeg_cons c ih

theorem hasSeg_append_right : ∀ {p l : List Char} (y : List Char),
    hasSeg p l = true → hasSeg p (l ++ y) = true := by
  intro p l
  induction l with
  | nil =>
    intro y h
    cases p with
    | nil =>
      cases y with
      | nil => rfl
      | cons c cs => simp [hasSeg, beginsWith]
    | cons a ps => simp [hasSeg, List.isEmpty_iff] at h
  | cons c cs ih =>
    intro y h
    simp only [hasSeg, Bool.or_eq_true] at h
    rcases h with h | h
    · exact hasSeg_of_beginsWith (by simpa using beginsWith_append_of y h)
    · simpa using hasSeg_cons c (ih y h)

theorem joinAmp_hasSeg : ∀ {L : List String} {s : String} {q : List Char},
    s ∈ L → hasSeg q s.data = true → hasSeg q (joinAmp L).data = true := by
  intro L
  induction L with
  | nil => intro s q hm _; simp at hm
  | cons a t ih =>
    intro s q hm h
    cases t with
    | nil =>
      rcases List.mem_cons.mp hm with rfl | habs
      · simpa [joinAmp] using h
      · simp at habs
    | cons b t2 =>
      rcases List.mem_cons.mp hm with rfl | hmem
      · show hasSeg q (joinAmp (s :: b :: t2)).data = true
        simp only [joinAmp, strDataAppend, List.append_assoc]
        exact hasSeg_append_right _ h
      · show hasSeg q (joinAmp (a :: b :: t2)).data = true
        simp only [joinAmp, strDataAppend, List.append_assoc]
        exact hasSeg_append_left _ (hasSeg_append_left _ (ih hmem h))

theorem replaceAux_length {p r : List Char} (hp : p ≠ []) (hlen : p.length = r.length) :
    ∀ (fuel : Nat) (s : List Char), s.length ≤ fuel →
      (replaceAux fuel s p r).length = s.length := by
  intro fuel
  induction fuel with
  | zero =>
    intro s hs
    have hnil : s = [] := List.length_eq_zero.mp (Nat.le_zero.mp hs)
    subst hnil
    rfl
  | succ n ih =>
    intro s hs
    cases s with
    | nil => rfl
    | cons c cs =>
      by_cases hb : beginsWith p (c :: cs) = true
      · have hple : p.length ≤ (c :: cs).length := beginsWith_le_length hb
        have hp1 : 1 ≤ p.length := List.length_pos.mpr hp
        have hdl : ((c :: cs).drop p.length).length = (c :: cs).length - p.length :=
          List.length_drop _ _
        have hrec := ih ((c :: cs).drop p.length) (by rw [hdl]; omega)
        simp only [replaceAux, if_pos hb, List.length_append, hrec, hdl]
        omega
      · have hrec := ih cs (by simpa [List.length_cons] using Nat.le_of_succ_le_succ hs)
        simp [replaceAux, hb, hrec]

theorem replaceAux_hasSeg {p r : List Char} (hp : p ≠ []) :
    ∀ (fuel : Nat) (s : List Char), s.length ≤ fuel → hasSeg p s = true →
      hasSeg r (replaceAux fuel s p r) = true := by
  intro fuel
  induction fuel with
  | zero =>
    intro s hs h
    have hnil : s = [] := List.length_eq_zero.mp (Nat.le_zero.mp hs)
    subst hnil
    simp [hasSeg, List.isEmpty_iff] at h
    exact absurd h hp
  | succ n ih =>
    intro s hs h
    cases s with
    | nil =>
      simp [hasSeg, List.isEmpty_iff] at h
      exact absurd h hp
    | cons c cs =>
      by_cases hb : beginsWith p (c :: cs) = true
      · simp only [replaceAux, if_pos hb]
        exact hasSeg_append_right _ (hasSeg_refl r)
      · simp only [hasSeg, Bool.or_eq_true] at h
        rcases h with h | h
        · exact absurd h hb
        · have hrec := ih cs (by simpa [List.length_cons] using Nat.le_of_succ_le_succ hs) h
          simp only [replaceAux, if_neg hb]
          exact hasSeg_cons c hrec

theorem pyReplace_length {pat rep : String} (s : String) (hp : pat.data ≠ [])
    (hlen : pat.data.length = rep.data.length) : (pyReplace s pat rep).length = s.length := by
  show (String.mk (replaceAux s.data.length s.data pat.data rep.data)).length = s.length
  rw [strLengthMk, replaceAux_length hp hlen s.data.length s.data (Nat.le_refl _), strLengthData]

theorem pyReplace_hasSeg {pat rep : String} (s : String) (hp : pat.data ≠ [])
    (h : hasSeg pat.data s.data = true) :
    hasSeg rep.data (pyReplace s pat rep).data = true := by
  simpa [pyReplace] using
    replaceAux_hasSeg hp s.data.length s.data (Nat.le_refl _) h

/-! ### Helper lemmas: quoting a single quote, sort and dict membership -/

theorem mem_strBytes_39 {v : String} (h : Char.ofNat 39 ∈ v.data) : 39 ∈ strBytes v := by
  simp only [strBytes, List.mem_flatten]
  exact ⟨charBytes (Char.ofNat 39), List.mem_map_of_mem _ h, by decide⟩

theorem hasSeg_q27_quoteBytes : ∀ {bs : List Nat}, 39 ∈ bs →
    hasSeg ['%', '2', '7'] ((bs.map quoteByteChars).flatten) = true := by
  intro bs
  induction bs with
  | nil => intro h; simp at h
  | cons b t ih =>
    intro h
    by_cases hb : b = 39
    · subst hb
      rw [List.map_cons, List.flatten_cons, show quoteByteChars 39 = ['%', '2', '7'] from by decide]
      exact hasSeg_of_beginsWith (beginsWith_append_self _ _)
    · rcases List.mem_cons.mp h with h39 | h39
      · exact absurd h39.symm hb
      · rw [List.map_cons, List.flatten_cons]
        exact hasSeg_append_left _ (ih h39)

theorem hasSeg_q27_quotePlus {v : String} (h : Char.ofNat 39 ∈ v.data) :
    hasSeg ("%27".data) (quote_plus v).data = true := by
  rw [show ("%27".data) = ['%', '2', '7'] from rfl]
  exact hasSeg_q27_quoteBytes (mem_strBytes_39 h)

theorem mem_insertPair {x p : String × PyVal} : ∀ {l : List (String × PyVal)},
    x ∈ insertPair p l ↔ x = p ∨ x ∈ l := by
  intro l
  induction l with
  | nil => simp [insertPair]
  | cons q qs ih =>
    by_cases hq : q.1 ≤ p.1
    · simp only [insertPair, if_pos hq, List.mem_cons, ih]
      tauto
    · simp only [insertPair, if_neg hq, List.mem_cons]

theorem mem_sortFold {x : String × PyVal} : ∀ (ps : List (String × PyVal)) (acc : List (String × PyVal)),
    (x ∈ ps.foldl (fun a p => insertPair p a) acc) ↔ x ∈ acc ∨ x ∈ ps := by
  intro ps
  induction ps with
  | nil => simp
  | cons p t ih =>
    intro acc
    simp only [List.foldl_cons, ih, mem_insertPair, List.mem_cons]
    tauto

theorem mem_sortByKey {x : String × PyVal} {ps : List (String × PyVal)} :
    x ∈ sortByKey ps ↔ x ∈ ps := by
  simp [sortByKey, mem_sortFold]

theorem length_insertPair (p : String × PyVal) : ∀ (l : List (String × PyVal)),
    (insertPair p l).length = l.length + 1 := by
  intro l
  induction l with
  | nil => rfl
  | cons q qs ih =>
    by_cases hq : q.1 ≤ p.1
    · simp only [insertPair]
      rw [if_pos hq]
      simp only [List.length_cons, ih]
    · simp only [insertPair]
      rw [if_neg hq]
      simp only [List.length_cons]

theorem length_sortFold : ∀ (ps : List (String × PyVal)) (acc : List (String × PyVal)),
    (ps.foldl (fun a p => insertPair p a) acc).length = acc.length + ps.length := by
  intro ps
  induction ps with
  | nil => simp
  | cons p t ih =>
    intro acc
    simp only [List.foldl_cons, ih, length_insertPair, List.length_cons]
    omega

theorem length_sortByKey (ps : List (String × PyVal)) : (sortByKey ps).length = ps.length := by
  simp [sortByKey, length_sortFold]

theorem mem_dictSet_of_ne {ps : List (String × PyVal)} {k k' : String} {v v' : PyVal}
    (h : (k, v) ∈ ps) (hne : k ≠ k') : (k, v) ∈ dictSet ps k' v' := by
  unfold dictSet
  by_cases hany : ps.any (fun p => p.1 == k') = true
  · simp only [hany, if_pos]
    exact List.mem_map.mpr ⟨(k, v), h, by simp [hne]⟩
  · simp only [hany]
    simp [List.mem_append, h]

theorem mem_dictSet_self (ps : List (String × PyVal)) (k : String) (v : PyVal) :
    (k, v) ∈ dictSet ps k v := by
  unfold dictSet
  by_cases hany : ps.any (fun p => p.1 == k) = true
  · simp only [hany, if_pos]
    obtain ⟨p, hp, hpk⟩ := List.any_eq_true.mp hany
    exact List.mem_map.mpr ⟨p, hp, by simp [hpk]⟩
  · simp only [hany]
    simp

theorem dictSet_ne_nil (ps : List (String × PyVal)) (k : String) (v : PyVal) :
    dictSet ps k v ≠ [] := by
  unfold dictSet
  by_cases hany : ps.any (fun p => p.1 == k) = true
  · simp only [hany, if_pos]
    intro hmap
    rcases ps with _ | ⟨p, t⟩
    · simp at hany
    · simp at hmap
  · simp only [hany]
    simp

theorem joinAmp_length_ge (x : String) (t : List String) :
    x.length ≤ (joinAmp (x :: t)).length := by
  cases t with
  | nil => exact Nat.le_refl _
  | cons b t2 =>
    show x.length ≤ (x ++ "&" ++ joinAmp (b :: t2)).length
    rw [strLengthAppend, strLengthAppend]
    omega

theorem pairStr_length_pos (p : String × PyVal) : 0 < (pairStr p).length := by
  show 0 < (quote_plus p.1 ++ "=" ++ quote_plus (pyStr p.2)).length
  rw [strLengthAppend, strLengthAppend]
  have : ("=" : String).length = 1 := rfl
  omega

theorem ne_empty_of_length_pos {s : String} (h : 0 < s.length) : s ≠ "" := by
  intro hnil
  subst hnil
  simp at h

/-! ### Helper lemmas: Python `in`/`[]` on object bodies agree with the
field accessors, and the `retCode` tail of both classifiers matches the
spec's (b)/(c) wording there -/

theorem any_key_eq_lookup_isSome (k : String) : ∀ (fs : List (String × Json)),
    (fs.any (fun p => p.1 == k)) = (fs.lookup k).isSome := by
  intro fs
  induction fs with
  | nil => rfl
  | cons p t ih =>
    rcases p with ⟨a, b⟩
    by_cases hak : k = a
    · subst hak
      simp [List.lookup]
    · have h1 : (k == a) = false := by simpa using hak
      have h2 : (a == k) = false := by simpa using (Ne.symm hak)
      simp [List.lookup, h1, h2, ih]

theorem pyIn_obj (k : String) (fs : List (String × Json)) :
    pyIn k (Json.obj fs) = some ((Json.obj fs).hasKey k) := by
  show some (fs.any (fun p => p.1 == k)) = some ((Json.obj fs).hasKey k)
  rw [any_key_eq_lookup_isSome]
  rfl

theorem pyGetItem_obj {fs : List (String × Json)} {k : String} {v : Json}
    (h : (Json.obj fs).get? k = some v) : pyGetItem (Json.obj fs) k = Except.ok v := by
  show (match fs.lookup k with
        | some w => Except.ok w
        | none => Except.error "KeyError") = Except.ok v
  rw [show fs.lookup k = some v from h]

theorem checkRetCode_spec {fs : List (String × Json)}
    (h3 : (match (Json.obj fs).get? "retCode" with
           | some rc => isZeroInt rc || (Json.obj fs).hasKey "retMsg"
           | none => true) = true) :
    checkRetCode (Json.obj fs) =
      if (match (Json.obj fs).get? "retCode" with
          | some rc => !(isZeroInt rc)
          | none => false) then
        ClassifyResult.appError (((Json.obj fs).get? "retCode").getD .null)
          (((Json.obj fs).get? "retMsg").getD .null)
      else ClassifyResult.success (Json.obj fs) := by
  rcases hr : (Json.obj fs).get? "retCode" with _ | rc
  · have hk : (Json.obj fs).hasKey "retCode" = false := by rw [Json.hasKey, hr]; rfl
    unfold checkRetCode
    rw [pyIn_obj, hk]
    exact rfl
  · have hk : (Json.obj fs).hasKey "retCode" = true := by rw [Json.hasKey, hr]; rfl
    unfold checkRetCode
    rw [pyIn_obj, hk, pyGetItem_obj hr]
    simp only [hr] at h3
    by_cases hz : isZeroInt rc = true
    · simp [hz]
    · have hz' : isZeroInt rc = false := by simpa using hz
      simp only [hz', Bool.false_or] at h3
      rcases hrm : (Json.obj fs).get? "retMsg" with _ | m
      · rw [Json.hasKey, hrm] at h3
        simp at h3
      · rw [pyGetItem_obj hrm]
        simp [hz']

theorem dispatch_handler_eq (m k sg : String) (t : Int) :
    (dispatch_request m k sg t).handler = (publicDispatcher m).handler := rfl

/-! ### Claim theorems -/

/-- Claim C1: for every query string, secret, key and timestamp, `hashing`
returns, for any exchange identifier other than `"bybit"`, the hex digest
HMAC-SHA256(secret, queryString), and for `"bybit"` the hex digest
HMAC-SHA256(secret, timestampMillis ++ key ++ "5000" ++ queryString). -/
theorem claim1_hashing_schemes (query_string key secret exchange : String) (ts : Int) :
    hashing query_string exchange ts ⟨key, secret⟩ =
      if exchange = "bybit" then
        hmacSha256Hex secret (toString ts ++ key ++ "5000" ++ query_string)
      else
        hmacSha256Hex secret query_string := by
  by_cases h : exchange = "bybit" <;> simp [hashing, h]

/-- Claim C9: every `dispatch_request` call installs all seven headers on
the fresh session, and the credential-free call `send_public_request`
makes sends the API-key and signature headers as empty strings and the
timestamp header as `"-1"` rather than omitting them. -/
theorem claim9_headers (m k sg : String) (t : Int) :
    (dispatch_request m k sg t).headers =
      [("Content-Type", "application/json;charset=utf-8"),
       ("X-MBX-APIKEY", k),
       ("X-BAPI-API-KEY", k),
       ("X-BAPI-SIGN", sg),
       ("X-BAPI-SIGN-TYPE", "2"),
       ("X-BAPI-TIMESTAMP", toString t),
       ("X-BAPI-RECV-WINDOW", "5000")] ∧
    (publicDispatcher m).headers =
      [("Content-Type", "application/json;charset=utf-8"),
       ("X-MBX-APIKEY", ""),
       ("X-BAPI-API-KEY", ""),
       ("X-BAPI-SIGN", ""),
       ("X-BAPI-SIGN-TYPE", "2"),
       ("X-BAPI-TIMESTAMP", "-1"),
       ("X-BAPI-RECV-WINDOW", "5000")] :=
  ⟨rfl, rfl⟩

/-- Claim C7: for every HTTP verb name outside GET, PUT, POST, DELETE the
verb dictionary falls back to the plain string `"GET"`, which is not a
callable, so both executors fail before dispatching anything — their
result is `TypeError`, independent of any network outcome. -/
theorem claim7_unknown_verb (m : String)
    (hm : m ≠ "GET" ∧ m ≠ "DELETE" ∧ m ≠ "PUT" ∧ m ≠ "POST")
    (k sg : String) (t : Int) (wantJson : Bool) (o o2 : HttpOutcome)
    (url_path : String) (payload : List (String × PyVal)) (exchange base_url : String)
    (keys : Keys) (ts : Int) :
    (dispatch_request m k sg t).handler = DispatchHandler.notCallable "GET" ∧
    send_public_request m wantJson o = Except.error "TypeError" ∧
    send_signed_request m url_path payload exchange base_url keys ts o2 =
      Except.error "TypeError" := by
  obtain ⟨h1, h2, h3, h4⟩ := hm
  have hh : ∀ (k' sg' : String) (t' : Int),
      (dispatch_request m k' sg' t').handler = DispatchHandler.notCallable "GET" := by
    intro k' sg' t'
    simp [dispatch_request, h1, h2, h3, h4]
  refine ⟨hh k sg t, ?_, ?_⟩
  · unfold send_public_request publicDispatcher
    rw [hh]
  · unfold send_signed_request
    rw [hh]

/-- Claim C7 witness: a concrete unknown verb crashes without dispatching. -/
theorem claim7_witness :
    (("PATCH" : String) ≠ "GET" ∧ ("PATCH" : String) ≠ "DELETE" ∧
     ("PATCH" : String) ≠ "PUT" ∧ ("PATCH" : String) ≠ "POST") ∧
    send_public_request "PATCH" true HttpOutcome.connectionError = Except.error "TypeError" ∧
    send_signed_request "PATCH" "/order" [] "binance" "https://x" ⟨"k", "s"⟩ 5
      HttpOutcome.connectionError = Except.error "TypeError" :=
  ⟨by decide,
   (claim7_unknown_verb "PATCH" (by decide) "" "" 0 true .connectionError .connectionError
     "/order" [] "binance" "https://x" ⟨"k", "s"⟩ 5).2.1,
   (claim7_unknown_verb "PATCH" (by decide) "" "" 0 true .connectionError .connectionError
     "/order" [] "binance" "https://x" ⟨"k", "s"⟩ 5).2.2⟩

/-- Claim C3: `send_signed_request` injects the fresh millisecond timestamp
into the parameter mapping only for `"binance"`, builds the canonical query
string from the parameters sorted by key, appends `&signature=digest` to
the URL only for `"binance"`, and for every exchange the signature and
timestamp reach the dispatcher's header set. -/
theorem claim3_signed_construction (m url_path base_url exchange : String)
    (payload : List (String × PyVal)) (keys : Keys) (ts : Int) :
    (buildSignedRequest url_path payload exchange base_url keys ts).queryString =
      pyReplace (urlencodeNoSeq (sortByKey
        (if exchange = "binance" then dictSet payload "timestamp" (PyVal.i ts) else payload)))
        "%27" "%22" ∧
    (buildSignedRequest url_path payload exchange base_url keys ts).url =
      (if exchange = "binance" then
        base_url ++ url_path ++ "?" ++
          (buildSignedRequest url_path payload exchange base_url keys ts).queryString ++
          "&signature=" ++
          hashing (buildSignedRequest url_path payload exchange base_url keys ts).queryString
            exchange (-1) keys
      else
        base_url ++ url_path ++ "?" ++
          (buildSignedRequest url_path payload exchange base_url keys ts).queryString) ∧
    (buildSignedRequest url_path payload exchange base_url keys ts).headerSignature =
      hashing (buildSignedRequest url_path payload exchange base_url keys ts).queryString
        exchange ts keys ∧
    (buildSignedRequest url_path payload exchange base_url keys ts).headerTimestamp = ts ∧
    ("X-BAPI-SIGN",
      (buildSignedRequest url_path payload exchange base_url keys ts).headerSignature) ∈
      (dispatch_request m keys.key
        (buildSignedRequest url_path payload exchange base_url keys ts).headerSignature
        ts).headers ∧
    ("X-BAPI-TIMESTAMP", toString ts) ∈
      (dispatch_request m keys.key
        (buildSignedRequest url_path payload exchange base_url keys ts).headerSignature
        ts).headers := by
  by_cases hex : exchange = "binance" <;>
    simp [buildSignedRequest, dispatch_request, hex]

/-- Claim C10: every exchange identifier other than `"binance"` and
`"bybit"` is accepted, builds the query string like the bybit path (no
timestamp parameter, no `&signature=` on the URL), and computes the header
signature with the standard scheme — plain HMAC-SHA256 over the query
string alone; a successful response flows back unchanged. -/
theorem claim10_other_exchange (exchange : String) (h1 : exchange ≠ "binance")
    (h2 : exchange ≠ "bybit") (url_path base_url : String)
    (payload : List (String × PyVal)) (keys : Keys) (ts : Int)
    (hs : List (String × String)) (j : Json)
    (hj : classifySigned j = ClassifyResult.success j) :
    (buildSignedRequest url_path payload exchange base_url keys ts).queryString =
      pyReplace (urlencodeNoSeq (sortByKey payload)) "%27" "%22" ∧
    (buildSignedRequest url_path payload exchange base_url keys ts).url =
      base_url ++ url_path ++ "?" ++
        (buildSignedRequest url_path payload exchange base_url keys ts).queryString ∧
    (buildSignedRequest url_path payload exchange base_url keys ts).headerSignature =
      hmacSha256Hex keys.secret
        (buildSignedRequest url_path payload exchange base_url keys ts).queryString ∧
    send_signed_request "GET" url_path payload exchange base_url keys ts
        (HttpOutcome.response hs "" (some j)) =
      Except.ok (PyRet.headers hs, PyRet.json j) := by
  refine ⟨?_, ?_, ?_, ?_⟩
  · simp [buildSignedRequest, h1]
  · simp [buildSignedRequest, h1]
  · simp [buildSignedRequest, hashing, h1, h2]
  · unfold send_signed_request
    rw [dispatch_handler_eq]
    rw [show (publicDispatcher "GET").handler = DispatchHandler.callable "GET" from rfl]
    simp [hj]

/-- Claim C10 witness: a concrete foreign exchange identifier. -/
theorem claim10_witness :
    (("kraken" : String) ≠ "binance" ∧ ("kraken" : String) ≠ "bybit" ∧
     classifySigned (Json.obj []) = ClassifyResult.success (Json.obj [])) ∧
    (buildSignedRequest "/v1" [] "kraken" "https://api" ⟨"k", "s"⟩ 7).headerSignature =
      hmacSha256Hex "s" (buildSignedRequest "/v1" [] "kraken" "https://api" ⟨"k", "s"⟩ 7).queryString ∧
    send_signed_request "GET" "/v1" [] "kraken" "https://api" ⟨"k", "s"⟩ 7
        (HttpOutcome.response [] "" (some (Json.obj []))) =
      Except.ok (PyRet.headers [], PyRet.json (Json.obj [])) :=
  ⟨⟨by decide, by decide, rfl⟩,
   (claim10_other_exchange "kraken" (by decide) (by decide) "/v1" "https://api" []
     ⟨"k", "s"⟩ 7 [] (Json.obj []) rfl).2.2.1,
   (claim10_other_exchange "kraken" (by decide) (by decide) "/v1" "https://api" []
     ⟨"k", "s"⟩ 7 [] (Json.obj []) rfl).2.2.2⟩

/-- Claim C6 counterexample: a signed bybit call with an empty payload has
an empty canonical query string and no timestamp parameter in it — the
claim's "any exchange identifier" is false. -/
theorem claim6_counterexample :
    (buildSignedRequest "/position" [] "bybit" "https://api.bybit.com" ⟨"", ""⟩
      1700000000000).queryString = "" := by
  decide

/-- Claim C6 (amended): only for the standard scheme (`"binance"`) does the
canonical query string always carry a timestamp parameter and is therefore
never empty; for other exchange identifiers the query string is the
encoding of the caller's payload alone. -/
theorem claim6_amended (url_path base_url : String) (payload : List (String × PyVal))
    (keys : Keys) (ts : Int) :
    ("timestamp", PyVal.i ts) ∈ sortByKey (dictSet payload "timestamp" (PyVal.i ts)) ∧
    (buildSignedRequest url_path payload "binance" base_url keys ts).queryString ≠ "" := by
  constructor
  · exact mem_sortByKey.mpr (mem_dictSet_self payload "timestamp" (PyVal.i ts))
  · have hqs : (buildSignedRequest url_path payload "binance" base_url keys ts).queryString =
        pyReplace (urlencodeNoSeq (sortByKey (dictSet payload "timestamp" (PyVal.i ts))))
          "%27" "%22" := by
      simp [buildSignedRequest]
    rw [hqs]
    apply ne_empty_of_length_pos
    rw [@pyReplace_length "%27" "%22" _ (by decide) (by decide)]
    rcases hcons : sortByKey (dictSet payload "timestamp" (PyVal.i ts)) with _ | ⟨p, t⟩
    · exfalso
      have hlen := length_sortByKey (dictSet payload "timestamp" (PyVal.i ts))
      rw [hcons] at hlen
      exact dictSet_ne_nil payload "timestamp" (PyVal.i ts)
        (List.length_eq_zero.mp hlen.symm)
    · show 0 < (joinAmp ((p :: t).map pairStr)).length
      rw [List.map_cons]
      exact Nat.lt_of_lt_of_le (pairStr_length_pos p) (joinAmp_length_ge _ _)

/-- Claim C2 counterexample: on the body `{"code": 1, "msg": ""}` the
spec's (a)/(b)/(c) contract mandates success (the `msg` field is empty),
but the signed executor's checks classify it as an application failure —
the claim's "both executors" is false. -/
theorem claim2_counterexample :
    specClassify (Json.obj [("code", Json.int 1), ("msg", Json.str "")]) =
      ClassifyResult.success (Json.obj [("code", Json.int 1), ("msg", Json.str "")]) ∧
    classifySigned (Json.obj [("code", Json.int 1), ("msg", Json.str "")]) =
      ClassifyResult.appError (Json.int 1) (Json.str "") ∧
    ClassifyResult.appError (Json.int 1) (Json.str "") ≠
      ClassifyResult.success (Json.obj [("code", Json.int 1), ("msg", Json.str "")]) := by
  refine ⟨rfl, rfl, ?_⟩
  intro hcontra
  exact ClassifyResult.noConfusion hcontra

/-- Claim C2 (amended): for decoded bodies that are JSON objects — on any
other body Python's `in`/`[]` give substring/element search or raise an
uncaught `TypeError` — whose `msg` field, when present, is a string,
whose `code` field comes with a `msg` field, and whose non-zero `retCode`
comes with a `retMsg`: the public executor classifies exactly by the
spec's (a)/(b)/(c) contract, while the signed executor replaces (a) by
"any body with a `code` field is a failure, code and msg taken verbatim"
and then follows (b)/(c). -/
theorem claim2_amended (j : Json) (h : classifiable j = true) :
    classifyPublic j = specClassify j ∧ classifySigned j = specClassifySignedAmended j := by
  rcases j with _ | s0 | n0 | es0 | fs
  · simp [classifiable] at h
  · simp [classifiable] at h
  · simp [classifiable] at h
  · simp [classifiable] at h
  simp only [classifiable, Bool.true_and, Bool.and_eq_true] at h
  obtain ⟨⟨h1, h2⟩, h3⟩ := h
  have htail := checkRetCode_spec h3
  rcases hc : (Json.obj fs).get? "code" with _ | c
  · have hk : (Json.obj fs).hasKey "code" = false := by rw [Json.hasKey, hc]; rfl
    constructor
    · have hL : classifyPublic (Json.obj fs) = checkRetCode (Json.obj fs) := by
        unfold classifyPublic
        rw [pyIn_obj, hk]
      rw [hL, htail]
      simp [specClassify, hk]
    · have hL : classifySigned (Json.obj fs) = checkRetCode (Json.obj fs) := by
        unfold classifySigned
        rw [pyIn_obj, hk]
      rw [hL, htail]
      simp [specClassifySignedAmended, hk]
  · have hk : (Json.obj fs).hasKey "code" = true := by rw [Json.hasKey, hc]; rfl
    rw [hk] at h2
    simp only [Bool.not_true, Bool.false_or] at h2
    rcases hm : (Json.obj fs).get? "msg" with _ | m
    · rw [Json.hasKey, hm] at h2
      simp at h2
    · have hkm : (Json.obj fs).hasKey "msg" = true := by rw [Json.hasKey, hm]; rfl
      rcases m with _ | s | n | es | fs2
      · rw [hm] at h1; simp at h1
      · constructor
        · have hL : classifyPublic (Json.obj fs) =
              (if 0 < s.length then ClassifyResult.appError c (Json.str s)
               else checkRetCode (Json.obj fs)) := by
            unfold classifyPublic
            rw [pyIn_obj, hk, pyIn_obj, hkm, pyGetItem_obj hm, pyGetItem_obj hc]
            exact rfl
          by_cases hs : 0 < s.length
          · rw [hL, if_pos hs]
            simp [specClassify, Json.hasKey, hc, hm, pyLen, hs]
          · rw [hL, if_neg hs, htail]
            simp [specClassify, Json.hasKey, hc, hm, pyLen, hs]
        · have hL : classifySigned (Json.obj fs) = ClassifyResult.appError c (Json.str s) := by
            unfold classifySigned
            rw [pyIn_obj, hk, pyGetItem_obj hc, pyGetItem_obj hm]
          rw [hL]
          simp [specClassifySignedAmended, Json.hasKey, hc, hm]
      · rw [hm] at h1; simp at h1
      · rw [hm] at h1; simp at h1
      · rw [hm] at h1; simp at h1

/-- Claim C2 witness: the spec's own `retCode` example body. -/
theorem claim2_witness :
    classifiable (Json.obj [("retCode", Json.int 10001), ("retMsg", Json.str "oops")]) = true ∧
    (classifyPublic (Json.obj [("retCode", Json.int 10001), ("retMsg", Json.str "oops")]) =
        specClassify (Json.obj [("retCode", Json.int 10001), ("retMsg", Json.str "oops")]) ∧
      classifySigned (Json.obj [("retCode", Json.int 10001), ("retMsg", Json.str "oops")]) =
        specClassifySignedAmended
          (Json.obj [("retCode", Json.int 10001), ("retMsg", Json.str "oops")])) :=
  ⟨by decide, claim2_amended _ (by decide)⟩

/-- Claim C4: with a callable verb, every enumerated failure mode — a
transport fault, a decode fault (when JSON was requested), or a classified
application error — makes either executor return the same sentinel pair of
two empty strings in place of (headers, body); nothing is raised to the
caller and the three kinds are observably identical. -/
theorem claim4_failure_modes (m : String) (hm : isCallableVerb m = true)
    (wantJson : Bool) (o : HttpOutcome) (url_path : String)
    (payload : List (String × PyVal)) (exchange base_url : String) (keys : Keys) (ts : Int) :
    (publicFailureMode wantJson o = true →
      send_public_request m wantJson o = Except.ok (PyRet.str "", PyRet.str "")) ∧
    (signedFailureMode o = true →
      send_signed_request m url_path payload exchange base_url keys ts o =
        Except.ok (PyRet.str "", PyRet.str "")) := by
  unfold isCallableVerb at hm
  rcases hh : (publicDispatcher m).handler with v | f
  swap
  · rw [hh] at hm
    simp at hm
  constructor
  · intro hfail
    unfold send_public_request
    rw [hh]
    cases o with
    | connectionError => rfl
    | timeout => rfl
    | tooManyRedirects => rfl
    | requestException msg => rfl
    | response hs text jb =>
      cases jb with
      | none =>
        have hw : wantJson = true := by simpa [publicFailureMode] using hfail
        rw [hw]
        rfl
      | some jj =>
        have hw : wantJson = true ∧ isAppError (classifyPublic jj) = true := by
          simpa [publicFailureMode, Bool.and_eq_true] using hfail
        obtain ⟨hw1, hw2⟩ := hw
        rw [hw1]
        cases hcl : classifyPublic jj with
        | success b =>
          rw [hcl] at hw2
          simp [isAppError] at hw2
        | appError cc mm => simp [hcl]
        | pyError kk =>
          rw [hcl] at hw2
          simp [isAppError] at hw2
  · intro hfail
    unfold send_signed_request
    rw [dispatch_handler_eq, hh]
    cases o with
    | connectionError => rfl
    | timeout => rfl
    | tooManyRedirects => rfl
    | requestException msg => rfl
    | response hs text jb =>
      cases jb with
      | none => rfl
      | some jj =>
        have hw : isAppError (classifySigned jj) = true := by
          simpa [signedFailureMode] using hfail
        cases hcl : classifySigned jj with
        | success b =>
          rw [hcl] at hw
          simp [isAppError] at hw
        | appError cc mm => simp [hcl]
        | pyError kk =>
          rw [hcl] at hw
          simp [isAppError] at hw

/-- Claim C4 witness: a concrete transport fault degrades both executors
to the sentinel pair. -/
theorem claim4_witness :
    isCallableVerb "GET" = true ∧
    publicFailureMode true HttpOutcome.connectionError = true ∧
    signedFailureMode HttpOutcome.connectionError = true ∧
    send_public_request "GET" true HttpOutcome.connectionError =
      Except.ok (PyRet.str "", PyRet.str "") ∧
    send_signed_request "GET" "/fapi/v2/balance" [] "binance" "https://x" ⟨"k", "s"⟩ 5
        HttpOutcome.connectionError = Except.ok (PyRet.str "", PyRet.str "") :=
  ⟨by decide, by decide, by decide,
   (claim4_failure_modes "GET" (by decide) true HttpOutcome.connectionError
     "/fapi/v2/balance" [] "binance" "https://x" ⟨"k", "s"⟩ 5).1 (by decide),
   (claim4_failure_modes "GET" (by decide) true HttpOutcome.connectionError
     "/fapi/v2/balance" [] "binance" "https://x" ⟨"k", "s"⟩ 5).2 (by decide)⟩

/-- Claim C5 counterexample: the public executor applies no `%27`
normalization — its canonical string for a payload holding a single quote
is `a=%27`, which still contains `%27` and no `%22`. -/
theorem claim5_counterexample :
    urlencodeSeq [("a", PyVal.s (String.mk [Char.ofNat 39]))] = "a=%27" ∧
    hasSeg ("%27".data) (urlencodeSeq [("a", PyVal.s (String.mk [Char.ofNat 39]))]).data = true ∧
    hasSeg ("%22".data) (urlencodeSeq [("a", PyVal.s (String.mk [Char.ofNat 39]))]).data = false := by
  refine ⟨by decide, by decide, by decide⟩

/-- Claim C5 (amended): only the signed executor normalizes the quote
encoding: for every payload containing, under a key other than
`"timestamp"`, a value whose Python stringification carries an embedded
single quote (any string value with a quote, and any list containing a
string, does), the signed canonical query string contains `%22`; the
public executor's string keeps `%27`. (The `"timestamp"` key is excluded
because the standard scheme overwrites that entry with the injected
timestamp before encoding.) -/
theorem claim5_amended (url_path base_url exchange : String) (payload : List (String × PyVal))
    (keys : Keys) (ts : Int) (k : String) (v : PyVal)
    (hk : (k, v) ∈ payload) (hkts : k ≠ "timestamp")
    (hq : Char.ofNat 39 ∈ (pyStr v).data) :
    hasSeg ("%22".data)
      ((buildSignedRequest url_path payload exchange base_url keys ts).queryString).data =
      true := by
  have hqs : (buildSignedRequest url_path payload exchange base_url keys ts).queryString =
      pyReplace (urlencodeNoSeq (sortByKey
        (if exchange = "binance" then dictSet payload "timestamp" (PyVal.i ts) else payload)))
        "%27" "%22" := by
    by_cases hex : exchange = "binance" <;> simp [buildSignedRequest, hex]
  rw [hqs]
  apply pyReplace_hasSeg _ (by decide)
  have hmem : (k, v) ∈
      (if exchange = "binance" then dictSet payload "timestamp" (PyVal.i ts) else payload) := by
    by_cases hex : exchange = "binance"
    · rw [if_pos hex]
      exact mem_dictSet_of_ne hk hkts
    · rw [if_neg hex]
      exact hk
  have hpair : hasSeg ("%27".data) (pairStr (k, v)).data = true := by
    show hasSeg _ (quote_plus k ++ "=" ++ quote_plus (pyStr v)).data = true
    rw [strDataAppend]
    exact hasSeg_append_left _ (hasSeg_q27_quotePlus hq)
  exact joinAmp_hasSeg (List.mem_map_of_mem pairStr (mem_sortByKey.mpr hmem)) hpair

/-- Claim C5 witness: a concrete single-quote value flows to `%22` in the
signed canonical string. -/
theorem claim5_witness :
    ((("a" : String), PyVal.s (String.mk [Char.ofNat 39])) ∈
        [(("a" : String), PyVal.s (String.mk [Char.ofNat 39]))] ∧
      ("a" : String) ≠ "timestamp" ∧
      Char.ofNat 39 ∈ (pyStr (PyVal.s (String.mk [Char.ofNat 39]))).data) ∧
    hasSeg ("%22".data)
      ((buildSignedRequest "/order" [("a", PyVal.s (String.mk [Char.ofNat 39]))] "bybit"
        "https://x" ⟨"", ""⟩ 3).queryString).data = true :=
  ⟨⟨List.mem_singleton.mpr rfl, by decide, by decide⟩,
   claim5_amended "/order" "https://x" "bybit" _ ⟨"", ""⟩ 3 "a"
     (PyVal.s (String.mk [Char.ofNat 39]))
     (List.mem_singleton.mpr rfl) (by decide) (by decide)⟩

/-- Claim C8 counterexample: the signed executor (which encodes with
`doseq=False`) turns a list-valued parameter into a single stringified
pair — `a=%5B%221%22%2C+%222%22%5D`, containing no `&` at all — while the
public encoding of the same payload is the repeated pairs `a=1&a=2`. -/
theorem claim8_counterexample :
    (buildSignedRequest "/q" [("a", PyVal.l [PyVal.s "1", PyVal.s "2"])] "bybit" ""
      ⟨"", ""⟩ 0).queryString = "a=%5B%221%22%2C+%222%22%5D" ∧
    ¬ ('&' ∈ ((buildSignedRequest "/q" [("a", PyVal.l [PyVal.s "1", PyVal.s "2"])] "bybit" ""
      ⟨"", ""⟩ 0).queryString).data) ∧
    urlencodeSeq [("a", PyVal.l [PyVal.s "1", PyVal.s "2"])] = "a=1&a=2" := by
  refine ⟨by decide, by decide, by decide⟩

/-- Claim C8 (amended): only the public executor encodes a repeatable
(list-valued) parameter as repeated `key=value` pairs, one per element —
each element's pair appears in the canonical string, and the pair list has
exactly one entry per element; the signed executor stringifies the list
into a single value. -/
theorem claim8_amended (ps : List (String × PyVal)) (k : String) (vs : List PyVal) (e : PyVal)
    (h1 : (k, PyVal.l vs) ∈ ps) (h2 : e ∈ vs) :
    pairStr (k, e) ∈ urlencodeSeqPairs ps ∧
    hasSeg (pairStr (k, e)).data (urlencodeSeq ps).data = true ∧
    (seqPairs k (PyVal.l vs)).length = vs.length := by
  have hmem : pairStr (k, e) ∈ urlencodeSeqPairs ps := by
    simp only [urlencodeSeqPairs, List.mem_flatten]
    refine ⟨seqPairs k (PyVal.l vs), List.mem_map.mpr ⟨(k, PyVal.l vs), h1, rfl⟩, ?_⟩
    show pairStr (k, e) ∈ vs.map (fun x => pairStr (k, x))
    exact List.mem_map.mpr ⟨e, h2, rfl⟩
  refine ⟨hmem, joinAmp_hasSeg hmem (hasSeg_refl _), ?_⟩
  show (vs.map (fun x => pairStr (k, x))).length = vs.length
  exact List.length_map vs _

/-- Claim C8 witness: a concrete two-element list parameter. -/
theorem claim8_witness :
    ((("ids" : String), PyVal.l [PyVal.i 1, PyVal.i 2]) ∈
        [(("ids" : String), PyVal.l [PyVal.i 1, PyVal.i 2])] ∧
      PyVal.i 1 ∈ [PyVal.i 1, PyVal.i 2]) ∧
    (pairStr ("ids", PyVal.i 1) ∈ urlencodeSeqPairs [("ids", PyVal.l [PyVal.i 1, PyVal.i 2])] ∧
      hasSeg (pairStr ("ids", PyVal.i 1)).data
        (urlencodeSeq [("ids", PyVal.l [PyVal.i 1, PyVal.i 2])]).data = true ∧
      (seqPairs "ids" (PyVal.l [PyVal.i 1, PyVal.i 2])).length =
        [PyVal.i 1, PyVal.i 2].length) :=
  ⟨⟨List.mem_singleton.mpr rfl, List.mem_cons_self _ _⟩,
   claim8_amended _ "ids" _ _ (List.mem_singleton.mpr rfl) (List.mem_cons_self _ _)⟩

end Futuresboard
